import Mathlib

/-!
Verification development for the rollup-plugin-data repository.

The definitions below are a shallow embedding of the plugin source:

- the runtime base64 decoder atob2 and its helpers (decodeResponseHelperFile
  in part_000, also shipped as src/decode-response.js);
- the configuration-resolution logic of resolveId, in its two variants
  (part_000 with a timing channel and a commented-out registration guard,
  part_001 with a three-way location and an active registration guard);
- the registry state machine around uniqueIdCounter, infoByImport and
  infoByUid;
- the mode json branch of renderChunk;
- the decodeAsset family of runtime helpers.

Strings are modelled as lists of characters where convenient; JavaScript
numbers that stay small non-negative integers are modelled as Nat, with
32-bit wrap-around spelled out where the source relies on it.
-/

/-! ## Base64 decoder, from the helper file in part_000 (atob2 and ctoi) -/

/-- Character codes that the JavaScript String.prototype.trim removes
(ECMA-262 WhiteSpace plus LineTerminator). -/
def wsCodes : List Nat :=
  [9, 10, 11, 12, 13, 32, 160, 5760, 8192, 8193, 8194, 8195, 8196, 8197,
   8198, 8199, 8200, 8201, 8202, 8232, 8233, 8239, 8287, 12288, 65279]

/-- Whether a character is JavaScript whitespace for trim purposes. -/
def jsWhitespace (c : Char) : Bool := wsCodes.contains c.toNat

/-- Model of data.trim(): drop whitespace from both ends. -/
def trimJs (l : List Char) : List Char :=
  ((l.dropWhile jsWhitespace).reverse.dropWhile jsWhitespace).reverse

/-- The 65-character table itoc of the helper file: the 64 base64 alphabet
symbols followed by the padding character. -/
def itoc : List Char :=
  "ABCDEFGHIJKLMNOPQRSTUVWXYZabcdefghijklmnopqrstuvwxyz0123456789+/=".toList

/-- The first 64 entries of itoc: the base64 alphabet proper. -/
def alphabet64 : List Char := itoc.take 64

/-- Model of the ctoi lookup object: the loop for (index = 0; index < 66;
index++) ctoi[itoc.charAt(index)] = index assigns every character of itoc its
index (itoc has no repeated characters, and the out-of-range iteration only
binds the empty-string key, which no single character can equal).  Absence of
a key is modelled as none. -/
def ctoi (c : Char) : Option Nat := itoc.findIdx? (fun d => d = c)

/-- Model of string.replace(finalEq, ""), where finalEq is the regular
expression matching one or two equals signs at the end of the string
(greedy, so two are removed when the string ends with two). -/
def stripEq (l : List Char) : List Char :=
  match l.reverse with
  | '=' :: '=' :: r => r.reverse
  | '=' :: r => r.reverse
  | _ => l

/-- The state of the decoding while-loop of atob2: the kept-character counter
bc, the bit accumulator bs, the Uint8Array contents ret, and the write
position outPos. -/
structure Atob2State where
  bc : Nat
  bs : Nat
  ret : List Nat
  outPos : Nat
deriving DecidableEq, Repr

/-- The JavaScript expression -2 * bc & 6, with the ToInt32 conversion of the
bitwise-and operand made explicit: the two-complement 32-bit value of -2*bc
is (2^32 - (2*bc) mod 2^32) mod 2^32, and only its low bits survive
the mask. -/
def jsShift (bc : Nat) : Nat := ((2 ^ 32 - (2 * bc) % 2 ^ 32) % 2 ^ 32) &&& 6

/-- A write ret[i] = v into a Uint8Array: out-of-range writes are silently
ignored in JavaScript. -/
def setAt (l : List Nat) (i v : Nat) : List Nat :=
  if i < l.length then l.set i v else l

/-- One iteration of the atob2 while-loop for a kept character value v (the
body guarded by ctoi.hasOwnProperty(chr)): bs = bc % 4 ? bs * 64 + ctoi[chr]
: ctoi[chr]; if (bc++ % 4) ret[outPos++] = 255 & bs >> (-2 * bc & 6), where
the shift reads the already-incremented bc. -/
def atob2StepV (st : Atob2State) (v : Nat) : Atob2State :=
  let bs := if st.bc % 4 ≠ 0 then st.bs * 64 + v else v
  if st.bc % 4 ≠ 0 then
    { bc := st.bc + 1, bs := bs,
      ret := setAt st.ret st.outPos ((bs >>> jsShift (st.bc + 1)) &&& 255),
      outPos := st.outPos + 1 }
  else
    { bc := st.bc + 1, bs := bs, ret := st.ret, outPos := st.outPos }

/-- One iteration of the atob2 while-loop for an arbitrary character: the
body runs only when ctoi.hasOwnProperty(chr). -/
def atob2Step (st : Atob2State) (c : Char) : Atob2State :=
  match ctoi c with
  | none => st
  | some v => atob2StepV st v

/-- The input of the packing loop of atob2: the trimmed string, with one or
two trailing padding characters removed when the trimmed length is a
multiple of 4. -/
def postStrip (data : List Char) : List Char :=
  let s0 := trimJs data
  if s0.length % 4 = 0 then stripEq s0 else s0

/-- Model of atob2 from the helper file in part_000: trim, conditionally
strip padding, reject a remaining length of 1 mod 4 with a DOMException
(modelled as the error case carrying the exception message), then run the
packing loop over a zero-initialised Uint8Array of
Math.floor(string.length * 6 / 8) bytes and return the whole buffer. -/
def atob2 (data : List Char) : Except String (List Nat) :=
  let s1 := postStrip data
  if s1.length % 4 = 1 then
    Except.error "The string is not correctly encoded"
  else
    Except.ok ((s1.foldl atob2Step
      { bc := 0, bs := 0, ret := List.replicate (s1.length * 6 / 8) 0,
        outPos := 0 }).ret)

/-- The bytes the packing loop writes for a list of kept six-bit values, in
the exact masked-shift form the loop computes them (three bytes for every
full group of four values, then one byte for a trailing pair and two for a
trailing triple). -/
def decodeQuads : List Nat → List Nat
  | [] => []
  | [_] => []
  | [v0, v1] => [((v0 * 64 + v1) >>> 4) &&& 255]
  | [v0, v1, v2] =>
      [((v0 * 64 + v1) >>> 4) &&& 255,
       (((v0 * 64 + v1) * 64 + v2) >>> 2) &&& 255]
  | v0 :: v1 :: v2 :: v3 :: rest =>
      (((v0 * 64 + v1) >>> 4) &&& 255)
        :: ((((v0 * 64 + v1) * 64 + v2) >>> 2) &&& 255)
        :: ((((v0 * 64 + v1) * 64 + v2) * 64 + v3) &&& 255)
        :: decodeQuads rest

deriving instance DecidableEq for Except

/-! ## Base64 encoder.

Modelled from the spec: the build-time encoder is the Node Buffer method
toString with argument base64, an external collaborator not present in this
repository; the spec fixes its contract as standard base64 over the
64-symbol alphabet with equals-sign padding. -/

/-- Modelled from the spec: the character for a six-bit value, read from the
standard alphabet table. -/
def sextetChar (v : Nat) : Char := itoc.getD v '?'

/-- Modelled from the spec: the six-bit values of standard base64, grouping
input bytes in threes, big-endian bit order. -/
def encodeSextets : List Nat → List Nat
  | [] => []
  | [b1] => [b1 / 4, b1 % 4 * 16]
  | [b1, b2] => [b1 / 4, b1 % 4 * 16 + b2 / 16, b2 % 16 * 4]
  | b1 :: b2 :: b3 :: rest =>
      b1 / 4 :: (b1 % 4 * 16 + b2 / 16) :: (b2 % 16 * 4 + b3 / 64)
        :: b3 % 64 :: encodeSextets rest

/-- Modelled from the spec: the padding appended by standard base64 for an
input of n bytes. -/
def b64pad (n : Nat) : List Char :=
  if n % 3 = 1 then ['=', '=']
  else if n % 3 = 2 then ['=']
  else []

/-- Modelled from the spec: standard base64 encoding of a byte list. -/
def encodeBase64 (bytes : List Nat) : List Char :=
  (encodeSextets bytes).map sextetChar ++ b64pad bytes.length

/-! ## Configuration resolution, resolveId of part_000.

Option-valued strings model JavaScript values that may be absent (undefined
or null, modelled as none) or present; JavaScript truthiness treats the
empty string like absence, which jsTruthy captures. -/

/-- JavaScript truthiness of an optional string: absent and empty are falsy. -/
def jsTruthy : Option String → Bool
  | none => false
  | some s => !s.isEmpty

/-- The JavaScript expression a || b on optional strings. -/
def jsOr (a b : Option String) : Option String := if jsTruthy a then a else b

/-- The per-file options record of part_000 (location, mode, timing, mime),
every field optional. -/
structure FileOpts where
  location : Option String := none
  mode : Option String := none
  timing : Option String := none
  mime : Option String := none
deriving DecidableEq, Repr

/-- The mergeOptions function of part_000: per-field, the target value wins
over the modifier value under JavaScript truthiness. -/
def mergeOptions (target modifier : FileOpts) : FileOpts :=
  { location := jsOr target.location modifier.location,
    mode := jsOr target.mode modifier.mode,
    timing := jsOr target.timing modifier.timing,
    mime := jsOr target.mime modifier.mime }

/-- The resolved effective configuration of one import in part_000. -/
structure ResolvedConfig where
  location : String
  mode : String
  timing : String
  mime : String
deriving DecidableEq, Repr

/-- The conflict error message template of resolveId in part_000: importer
dash imported dash id, but specified (the assertion-channel value) via its
own import assertion. -/
def conflictMsg (importer id aVal : String) : String :=
  importer ++ " imported " ++ id ++ ", but specified " ++ aVal
    ++ " via its import assertion."

/-- The unknown-location error message of resolveId in part_000. -/
def unknownLocationMsg (importer id location : String) : String :=
  importer ++ " imported " ++ id ++ " with an unknown location specified: \""
    ++ location ++ "\""

/-- The unknown-mode error message of resolveId in part_000. -/
def unknownModeMsg (importer id mode : String) : String :=
  importer ++ " imported " ++ id ++ " with an unknown mode specified: \""
    ++ mode ++ "\""

/-- The configuration-resolution slice of resolveId in part_000, lines
286 to 310.  Inputs: q holds the query-style parameters already extracted
from the import id by URL parsing (an external collaborator; note that the
URL parser percent-decodes, so a query value need not occur verbatim inside
the id string), a holds the import-assertion record, cb the result of the
fileOptions path callback, and ft the fileTypes table entry for the
extension (the empty record when the extension is unknown).  Defaults merge
the callback result over the extension entry; the four conflict checks run
in source order (location, mime, mode, timing) before the per-field
precedence chain and the final enum validation. -/
def resolveConfig000 (importer id : String) (q a cb ft : FileOpts) :
    Except String ResolvedConfig :=
  let d := mergeOptions cb ft
  if jsTruthy a.location ∧ jsTruthy q.location ∧ a.location ≠ q.location then
    Except.error (conflictMsg importer id (a.location.getD ""))
  else if jsTruthy a.mime ∧ jsTruthy q.mime ∧ a.mime ≠ q.mime then
    Except.error (conflictMsg importer id (a.mime.getD ""))
  else if jsTruthy a.mode ∧ jsTruthy q.mode ∧ a.mode ≠ q.mode then
    Except.error (conflictMsg importer id (a.mode.getD ""))
  else if jsTruthy a.timing ∧ jsTruthy q.timing ∧ a.timing ≠ q.timing then
    Except.error (conflictMsg importer id (a.timing.getD ""))
  else
    let location := (jsOr q.location (jsOr a.location (jsOr d.location (some "inline")))).getD "inline"
    let mode := (jsOr q.mode (jsOr a.mode (jsOr d.mode (some "blob")))).getD "blob"
    let mime := (jsOr q.mime (jsOr a.mime (jsOr d.mime (some "application/octet-stream")))).getD "application/octet-stream"
    let timing := (jsOr q.timing (jsOr a.timing (jsOr d.timing (some "async")))).getD "async"
    if location ≠ "asset" ∧ location ≠ "inline" then
      Except.error (unknownLocationMsg importer id location)
    else if mode ≠ "blob" ∧ mode ≠ "array-buffer" ∧ mode ≠ "json"
        ∧ mode ≠ "text" ∧ mode ≠ "response" then
      Except.error (unknownModeMsg importer id mode)
    else
      Except.ok { location := location, mode := mode, timing := timing, mime := mime }

/-! ## Configuration resolution, resolveId of part_001 (the legacy variant:
no timing channel, a three-way location enum, and the mergeOptions call for
the defaults takes the fileTypes entry as target and the path callback as
modifier). -/

/-- The per-file options record of part_001 (location, mode, mime). -/
structure FileOpts001 where
  location : Option String := none
  mode : Option String := none
  mime : Option String := none
deriving DecidableEq, Repr

/-- The mergeOptions function of part_001. -/
def mergeOptions001 (target modifier : FileOpts001) : FileOpts001 :=
  { location := jsOr target.location modifier.location,
    mode := jsOr target.mode modifier.mode,
    mime := jsOr target.mime modifier.mime }

/-- The resolved effective configuration of one import in part_001. -/
structure ResolvedConfig001 where
  location : String
  mode : String
  mime : String
deriving DecidableEq, Repr

/-- The configuration-resolution slice of resolveId in part_001, lines
263 to 284: the defaults are mergeOptions(fileTypes entry, fileOptions
callback result), so the extension entry is the target and wins per field;
three conflict checks (location, mime, mode); location validates against
asset, inline and url. -/
def resolveConfig001 (importer id : String) (q a cb ft : FileOpts001) :
    Except String ResolvedConfig001 :=
  let d := mergeOptions001 ft cb
  if jsTruthy a.location ∧ jsTruthy q.location ∧ a.location ≠ q.location then
    Except.error (conflictMsg importer id (a.location.getD ""))
  else if jsTruthy a.mime ∧ jsTruthy q.mime ∧ a.mime ≠ q.mime then
    Except.error (conflictMsg importer id (a.mime.getD ""))
  else if jsTruthy a.mode ∧ jsTruthy q.mode ∧ a.mode ≠ q.mode then
    Except.error (conflictMsg importer id (a.mode.getD ""))
  else
    let location := (jsOr q.location (jsOr a.location (jsOr d.location (some "inline")))).getD "inline"
    let mode := (jsOr q.mode (jsOr a.mode (jsOr d.mode (some "blob")))).getD "blob"
    let mime := (jsOr q.mime (jsOr a.mime (jsOr d.mime (some "application/octet-stream")))).getD "application/octet-stream"
    if location ≠ "asset" ∧ location ≠ "inline" ∧ location ≠ "url" then
      Except.error (unknownLocationMsg importer id location)
    else if mode ≠ "blob" ∧ mode ≠ "array-buffer" ∧ mode ≠ "json"
        ∧ mode ≠ "text" ∧ mode ≠ "response" then
      Except.error (unknownModeMsg importer id mode)
    else
      Except.ok { location := location, mode := mode, mime := mime }

/-- Written from the words of the spec, for comparison with the source: per
field, the first value in the priority list that is non-empty, else the
hard-coded fallback. -/
def specFirstNonEmpty (priorities : List (Option String)) (fallback : String) : String :=
  (priorities.foldr (fun a acc => jsOr a acc) (some fallback)).getD fallback

/-! ## The import registry around uniqueIdCounter, infoByImport, infoByUid. -/

/-- The slice of a DataPluginInfo record the registry claims are about: the
original import string and the assigned unique identity.  The remaining
fields (paths, effective configuration, raw data, file reference) do not
participate in the identity bookkeeping. -/
structure RegInfo where
  importStr : String
  uniqueId : Nat
deriving DecidableEq, Repr

/-- A JavaScript Map as an insertion-ordered association list; set replaces
in place when the key exists and appends otherwise, as Map.prototype.set
does. -/
def mapSet {α β : Type} [DecidableEq α] : List (α × β) → α → β → List (α × β)
  | [], k, v => [(k, v)]
  | (k1, v1) :: rest, k, v =>
      if k1 = k then (k, v) :: rest else (k1, v1) :: mapSet rest k v

/-- Map.prototype.get: the value stored at a key, none when absent. -/
def mapGet {α β : Type} [DecidableEq α] : List (α × β) → α → Option β
  | [], _ => none
  | (k1, v1) :: rest, k => if k1 = k then some v1 else mapGet rest k

/-- The registry state of one plugin instance: the uniqueIdCounter closure
variable and the two Map indices. -/
structure PluginState where
  uniqueIdCounter : Nat
  infoByImport : List (String × RegInfo)
  infoByUid : List (Nat × RegInfo)
deriving DecidableEq, Repr

/-- The fresh state of a plugin instance. -/
def initState : PluginState :=
  { uniqueIdCounter := 0, infoByImport := [], infoByUid := [] }

/-- The registration step of resolveId in part_000 (lines 317 to 332), where
the guard if (!infoByImport.has(id)) is commented out: build newInfo with
uniqueId = uniqueIdCounter++, then store it in both indices. -/
def registerOne (st : PluginState) (req : String) : PluginState :=
  let info : RegInfo := { importStr := req, uniqueId := st.uniqueIdCounter }
  { uniqueIdCounter := st.uniqueIdCounter + 1,
    infoByImport := mapSet st.infoByImport req info,
    infoByUid := mapSet st.infoByUid info.uniqueId info }

/-- The registration step of resolveId in part_001 (lines 242 to 306), where
the guard is active: an already-registered import string leaves the state
unchanged. -/
def registerOne001 (st : PluginState) (req : String) : PluginState :=
  if (mapGet st.infoByImport req).isSome then st else registerOne st req

/-- The uniqueId resolveId returns for a request (the value read back as
infoByImport.get(id)!.uniqueId after registration); zero stands in for the
impossible missing case of the non-null assertion. -/
def resolvedUid (st : PluginState) (req : String) : Nat :=
  match mapGet (registerOne st req).infoByImport req with
  | some info => info.uniqueId
  | none => 0

/-- Registration of a whole list of import requests in order, part_000. -/
def resolveMany (st : PluginState) (reqs : List String) : PluginState :=
  reqs.foldl registerOne st

/-- Registration of a whole list of import requests in order, part_001. -/
def resolveMany001 (st : PluginState) (reqs : List String) : PluginState :=
  reqs.foldl registerOne001 st

/-! ## The mode json branch of renderChunk (part_000 lines 404 to 407).

The source computes JSON.parse(JSON.stringify(text)) where text is the raw
file data decoded as UTF-8.  JSON.stringify applied to a string always
yields a JSON string literal, so the JSON.parse call takes its
string-literal path; that path is embedded below (escape on the stringify
side, the string-literal grammar on the parse side).  Code points below 32
are escaped with the short escapes and the lowercase hexadecimal u-escape,
as JSON.stringify emits them. -/

/-- Lowercase hexadecimal digit. -/
def hexDigit (n : Nat) : Char :=
  if n < 10 then Char.ofNat (48 + n) else Char.ofNat (87 + n)

/-- Value of a hexadecimal digit character, none for other characters. -/
def hexVal (c : Char) : Option Nat :=
  if '0' ≤ c ∧ c ≤ '9' then some (c.toNat - 48)
  else if 'a' ≤ c ∧ c ≤ 'f' then some (c.toNat - 87)
  else if 'A' ≤ c ∧ c ≤ 'F' then some (c.toNat - 55)
  else none

/-- The escape JSON.stringify applies to one character of a string. -/
def jsonEscapeChar (c : Char) : List Char :=
  if c = '"' then ['\\', '"']
  else if c = '\\' then ['\\', '\\']
  else if c = '\x08' then ['\\', 'b']
  else if c = '\x0c' then ['\\', 'f']
  else if c = '\n' then ['\\', 'n']
  else if c = '\r' then ['\\', 'r']
  else if c = '\t' then ['\\', 't']
  else if c.toNat < 32 then
    ['\\', 'u', '0', '0', hexDigit (c.toNat / 16), hexDigit (c.toNat % 16)]
  else [c]

/-- JSON.stringify of a string: a quoted, escaped string literal. -/
def jsonStringifyStr (s : String) : String :=
  String.mk ('"' :: (s.toList.map jsonEscapeChar).flatten ++ ['"'])

/-- Prepends one decoded character to the content of a successful parse. -/
def jsonCons (c : Char) : Option (List Char × List Char) → Option (List Char × List Char)
  | some (content, rem) => some (c :: content, rem)
  | none => none

/-- The character named by a single-letter JSON escape, none for an invalid
escape letter. -/
def jsonEscMap (e : Char) : Option Char :=
  if e = '"' then some '"'
  else if e = '\\' then some '\\'
  else if e = '/' then some '/'
  else if e = 'b' then some '\x08'
  else if e = 'f' then some '\x0c'
  else if e = 'n' then some '\n'
  else if e = 'r' then some '\r'
  else if e = 't' then some '\t'
  else none

/-- The body of the JSON string-literal grammar after the opening quote:
returns the decoded content and the remaining input after the closing
quote, or none when the literal is malformed (unterminated, a bad escape,
or a raw control character). -/
def jsonUnescape : List Char → Option (List Char × List Char)
  | [] => none
  | c :: rest =>
      if c = '"' then some ([], rest)
      else if c = '\\' then
        match rest with
        | 'u' :: h1 :: h2 :: h3 :: h4 :: rest3 =>
            match hexVal h1, hexVal h2, hexVal h3, hexVal h4 with
            | some n1, some n2, some n3, some n4 =>
                jsonCons (Char.ofNat (n1 * 4096 + n2 * 256 + n3 * 16 + n4))
                  (jsonUnescape rest3)
            | _, _, _, _ => none
        | e :: rest2 =>
            match jsonEscMap e with
            | some d => jsonCons d (jsonUnescape rest2)
            | none => none
        | [] => none
      else if c.toNat < 32 then none
      else jsonCons c (jsonUnescape rest)

/-- JSON whitespace, allowed around a top-level value. -/
def jsonWs (c : Char) : Bool := c = ' ' ∨ c = '\t' ∨ c = '\n' ∨ c = '\r'

/-- JSON.parse restricted to inputs that are a single string literal, the
only inputs the renderChunk json branch ever hands it. -/
def jsonParseStringLit (s : String) : Option String :=
  match s.toList.dropWhile jsonWs with
  | c :: rest =>
      if c = '"' then
        match jsonUnescape rest with
        | some (content, rem) =>
            if rem.dropWhile jsonWs = [] then some (String.mk content) else none
        | none => none
      else none
  | [] => none

/-- The mode json case of the renderChunk substitution callback in part_000:
info.rawData ? JSON.parse(JSON.stringify(info.rawData.toString("utf-8"))) :
"undefined".  The error case models a JSON.parse exception, which would
abort the build. -/
def renderJsonSubst (rawData : Option String) : Except String String :=
  match rawData with
  | some text =>
      match jsonParseStringLit (jsonStringifyStr text) with
      | some v => Except.ok v
      | none => Except.error "Unexpected token in JSON"
  | none => Except.ok "undefined"

/-! ## The decodeAsset runtime helpers of the helper file in part_000. -/

/-- Values the decode helpers pass around (payloads of the response
extraction methods). -/
inductive JsVal where
  | str : String → JsVal
  | blobBytes : List Nat → String → JsVal
  | bufBytes : List Nat → JsVal
  | jsonText : String → JsVal
deriving DecidableEq, Repr

/-- A settled network response: its ok flag, its numeric status, and the
values its blob, text, json and arrayBuffer methods would produce. -/
structure RespData where
  ok : Bool
  status : Nat
  blobData : JsVal
  textData : JsVal
  jsonData : JsVal
  bufData : JsVal
deriving DecidableEq, Repr

/-- A possibly still-pending response-like value: the pending constructor
models a thenable (the test for a then property in decodeAssetShared), the
settled constructor a plain response object. -/
inductive ResponseLike where
  | pending : ResponseLike → ResponseLike
  | settled : RespData → ResponseLike
deriving DecidableEq, Repr

/-- Await of a thenable chain down to the settled response. -/
def settleResponse : ResponseLike → RespData
  | ResponseLike.pending r => settleResponse r
  | ResponseLike.settled d => d

/-- decodeAssetShared of the helper file: await any thenable recursively;
an ok response gets the shape-specific action applied; a not-ok response
falls back to the backup when one is non-null, else the helper throws the
status-bearing error.  The backup is an Option because the source compares
it against null with a loose inequality. -/
def decodeAssetShared {β : Type} :
    ResponseLike → (RespData → β) → Option β → Except String β
  | ResponseLike.pending r, action, backup => decodeAssetShared r action backup
  | ResponseLike.settled d, action, backup =>
      if d.ok then Except.ok (action d)
      else
        match backup with
        | some b => Except.ok b
        | none =>
            Except.error
              ("Critical error: could not load file: HTTP response " ++ toString d.status)

/-- decodeAssetBlob: backupValue defaults to null. -/
def decodeAssetBlob (response : ResponseLike) (backupValue : Option JsVal := none) :
    Except String JsVal :=
  decodeAssetShared response (fun r => r.blobData) backupValue

/-- decodeAssetText: backupValue defaults to the empty string. -/
def decodeAssetText (response : ResponseLike)
    (backupValue : Option JsVal := some (JsVal.str "")) : Except String JsVal :=
  decodeAssetShared response (fun r => r.textData) backupValue

/-- decodeAssetJson: backupValue defaults to the empty string. -/
def decodeAssetJson (response : ResponseLike)
    (backupValue : Option JsVal := some (JsVal.str "")) : Except String JsVal :=
  decodeAssetShared response (fun r => r.jsonData) backupValue

/-- decodeAssetArrayBuffer: backupValue defaults to the empty string. -/
def decodeAssetArrayBuffer (response : ResponseLike)
    (backupValue : Option JsVal := some (JsVal.str "")) : Except String JsVal :=
  decodeAssetShared response (fun r => r.bufData) backupValue

/-- decodeAssetResponse: the identity action, and the response itself as the
backup (awaited, hence settled, in the branch that returns it). -/
def decodeAssetResponse (response : ResponseLike) : Except String RespData :=
  decodeAssetShared response (fun r => r) (some (settleResponse response))

/-- Naive test that the first list occurs as a contiguous run at the start
of the second. -/
def leadsList : List Char → List Char → Bool
  | [], _ => true
  | _ :: _, [] => false
  | a :: as, b :: bs => a = b && leadsList as bs

/-- Naive test that the first list occurs contiguously anywhere inside the
second; used to state what an error message does or does not mention. -/
def occursIn (needle : List Char) : List Char → Bool
  | [] => leadsList needle []
  | c :: rest => leadsList needle (c :: rest) || occursIn needle rest

/-! ## Codec lemmas -/

theorem and255 (x : Nat) : x &&& 255 = x % 256 := by
  have h := Nat.and_pow_two_sub_one_eq_mod x 8
  norm_num at h
  exact h

theorem and_six_eq_mod_eight_and (x : Nat) : x &&& 6 = x % 8 &&& 6 := by
  conv_lhs => rw [show (6 : Nat) = 7 &&& 6 by rfl, ← Nat.and_assoc]
  have h7 := Nat.and_pow_two_sub_one_eq_mod x 3
  norm_num at h7
  rw [h7]

theorem jsShift_eq (bc : Nat) : jsShift bc = 2 * ((4 - bc % 4) % 4) := by
  unfold jsShift
  have hpow : (2 : Nat) ^ 32 = 4294967296 := by norm_num
  rw [hpow, and_six_eq_mod_eight_and]
  have h8 : (4294967296 - 2 * bc % 4294967296) % 4294967296 % 8
      = 2 * ((4 - bc % 4) % 4) := by omega
  rw [h8]
  have h4 : (4 - bc % 4) % 4 < 4 := by omega
  rcases (by omega :
      (4 - bc % 4) % 4 = 0 ∨ (4 - bc % 4) % 4 = 1
        ∨ (4 - bc % 4) % 4 = 2 ∨ (4 - bc % 4) % 4 = 3) with h | h | h | h <;>
    rw [h] <;> rfl

theorem jsShift_of_mod_two (bc : Nat) (h : bc % 4 = 2) : jsShift bc = 4 := by
  rw [jsShift_eq]; omega

theorem jsShift_of_mod_three (bc : Nat) (h : bc % 4 = 3) : jsShift bc = 2 := by
  rw [jsShift_eq]; omega

theorem jsShift_of_mod_zero (bc : Nat) (h : bc % 4 = 0) : jsShift bc = 0 := by
  rw [jsShift_eq]; omega

theorem set_append_left_length (acc l : List Nat) (v : Nat) :
    (acc ++ l).set acc.length v = acc ++ l.set 0 v := by
  induction acc with
  | nil => simp
  | cons a t ih => simp [List.set, ih]

theorem setAt_append_replicate (acc : List Nat) (R v : Nat) (hR : 1 ≤ R) :
    setAt (acc ++ List.replicate R 0) acc.length v
      = (acc ++ [v]) ++ List.replicate (R - 1) 0 := by
  obtain ⟨r, rfl⟩ : ∃ r, R = r + 1 := ⟨R - 1, by omega⟩
  unfold setAt
  rw [if_pos (by simp)]
  rw [set_append_left_length]
  simp [List.replicate_succ, List.set]

theorem foldl_atob2Step_filterMap (t : List Char) :
    ∀ st : Atob2State, t.foldl atob2Step st = (t.filterMap ctoi).foldl atob2StepV st := by
  induction t with
  | nil => intro st; rfl
  | cons c rest ih =>
    intro st
    cases h : ctoi c with
    | none => simp [List.foldl_cons, List.filterMap_cons, h, atob2Step, ih]
    | some v => simp [List.foldl_cons, List.filterMap_cons, h, atob2Step, ih]

theorem atob2StepV_nowrite (st : Atob2State) (v : Nat) (h : st.bc % 4 = 0) :
    atob2StepV st v = { bc := st.bc + 1, bs := v, ret := st.ret, outPos := st.outPos } := by
  simp [atob2StepV, h]

theorem atob2StepV_write (st : Atob2State) (v : Nat) (h : st.bc % 4 ≠ 0) :
    atob2StepV st v =
      { bc := st.bc + 1, bs := st.bs * 64 + v,
        ret := setAt st.ret st.outPos (((st.bs * 64 + v) >>> jsShift (st.bc + 1)) &&& 255),
        outPos := st.outPos + 1 } := by
  simp [atob2StepV, h]

theorem decodeQuads_length : ∀ vs : List Nat, (decodeQuads vs).length = 3 * vs.length / 4
  | [] => by simp [decodeQuads]
  | [_] => by simp [decodeQuads]
  | [_, _] => by simp [decodeQuads]
  | [_, _, _] => by simp [decodeQuads]
  | _ :: _ :: _ :: _ :: rest => by
      have ih := decodeQuads_length rest
      simp [decodeQuads, ih]
      omega

theorem foldl_quads : ∀ (vs acc : List Nat) (R bc bs : Nat), bc % 4 = 0 →
    (decodeQuads vs).length ≤ R →
    (vs.foldl atob2StepV ⟨bc, bs, acc ++ List.replicate R 0, acc.length⟩).ret
      = acc ++ decodeQuads vs ++ List.replicate (R - (decodeQuads vs).length) 0
  | [], acc, R, bc, bs, hbc, _ => by simp [decodeQuads]
  | [v0], acc, R, bc, bs, hbc, _ => by
      have e1 : atob2StepV ⟨bc, bs, acc ++ List.replicate R 0, acc.length⟩ v0
          = ⟨bc + 1, v0, acc ++ List.replicate R 0, acc.length⟩ :=
        atob2StepV_nowrite _ _ hbc
      rw [List.foldl_cons, e1, List.foldl_nil]
      simp [decodeQuads]
  | [v0, v1], acc, R, bc, bs, hbc, hR => by
      have hR1 : 1 ≤ R := by simpa [decodeQuads] using hR
      have e1 : atob2StepV ⟨bc, bs, acc ++ List.replicate R 0, acc.length⟩ v0
          = ⟨bc + 1, v0, acc ++ List.replicate R 0, acc.length⟩ :=
        atob2StepV_nowrite _ _ hbc
      have e2 : atob2StepV ⟨bc + 1, v0, acc ++ List.replicate R 0, acc.length⟩ v1
          = ⟨bc + 2, v0 * 64 + v1,
              (acc ++ [((v0 * 64 + v1) >>> 4) &&& 255]) ++ List.replicate (R - 1) 0,
              acc.length + 1⟩ := by
        rw [atob2StepV_write _ _ (show (bc + 1) % 4 ≠ 0 by omega)]
        dsimp only
        rw [jsShift_of_mod_two (bc + 1 + 1) (by omega)]
        rw [setAt_append_replicate acc R _ hR1]
      rw [List.foldl_cons, e1, List.foldl_cons, e2, List.foldl_nil]
      simp [decodeQuads]
  | [v0, v1, v2], acc, R, bc, bs, hbc, hR => by
      have hR2 : 2 ≤ R := by simpa [decodeQuads] using hR
      have e1 : atob2StepV ⟨bc, bs, acc ++ List.replicate R 0, acc.length⟩ v0
          = ⟨bc + 1, v0, acc ++ List.replicate R 0, acc.length⟩ :=
        atob2StepV_nowrite _ _ hbc
      have e2 : atob2StepV ⟨bc + 1, v0, acc ++ List.replicate R 0, acc.length⟩ v1
          = ⟨bc + 2, v0 * 64 + v1,
              (acc ++ [((v0 * 64 + v1) >>> 4) &&& 255]) ++ List.replicate (R - 1) 0,
              acc.length + 1⟩ := by
        rw [atob2StepV_write _ _ (show (bc + 1) % 4 ≠ 0 by omega)]
        dsimp only
        rw [jsShift_of_mod_two (bc + 1 + 1) (by omega)]
        rw [setAt_append_replicate acc R _ (by omega)]
      have e3 : atob2StepV ⟨bc + 2, v0 * 64 + v1,
              (acc ++ [((v0 * 64 + v1) >>> 4) &&& 255]) ++ List.replicate (R - 1) 0,
              acc.length + 1⟩ v2
          = ⟨bc + 3, (v0 * 64 + v1) * 64 + v2,
              ((acc ++ [((v0 * 64 + v1) >>> 4) &&& 255])
                  ++ [(((v0 * 64 + v1) * 64 + v2) >>> 2) &&& 255])
                ++ List.replicate (R - 1 - 1) 0,
              acc.length + 2⟩ := by
        rw [atob2StepV_write _ _ (show (bc + 2) % 4 ≠ 0 by omega)]
        dsimp only
        rw [jsShift_of_mod_three (bc + 2 + 1) (by omega)]
        rw [show acc.length + 1 = (acc ++ [((v0 * 64 + v1) >>> 4) &&& 255]).length by simp]
        rw [setAt_append_replicate _ (R - 1) _ (by omega)]
        simp
      rw [List.foldl_cons, e1, List.foldl_cons, e2, List.foldl_cons, e3, List.foldl_nil]
      simp [decodeQuads]
      omega
  | v0 :: v1 :: v2 :: v3 :: rest, acc, R, bc, bs, hbc, hR => by
      have hlen : (decodeQuads (v0 :: v1 :: v2 :: v3 :: rest)).length
          = 3 + (decodeQuads rest).length := by
        simp only [decodeQuads, List.length_cons]
        omega
      rw [hlen] at hR
      have e1 : atob2StepV ⟨bc, bs, acc ++ List.replicate R 0, acc.length⟩ v0
          = ⟨bc + 1, v0, acc ++ List.replicate R 0, acc.length⟩ :=
        atob2StepV_nowrite _ _ hbc
      have e2 : atob2StepV ⟨bc + 1, v0, acc ++ List.replicate R 0, acc.length⟩ v1
          = ⟨bc + 2, v0 * 64 + v1,
              (acc ++ [((v0 * 64 + v1) >>> 4) &&& 255]) ++ List.replicate (R - 1) 0,
              acc.length + 1⟩ := by
        rw [atob2StepV_write _ _ (show (bc + 1) % 4 ≠ 0 by omega)]
        dsimp only
        rw [jsShift_of_mod_two (bc + 1 + 1) (by omega)]
        rw [setAt_append_replicate acc R _ (by omega)]
      have e3 : atob2StepV ⟨bc + 2, v0 * 64 + v1,
              (acc ++ [((v0 * 64 + v1) >>> 4) &&& 255]) ++ List.replicate (R - 1) 0,
              acc.length + 1⟩ v2
          = ⟨bc + 3, (v0 * 64 + v1) * 64 + v2,
              ((acc ++ [((v0 * 64 + v1) >>> 4) &&& 255])
                  ++ [(((v0 * 64 + v1) * 64 + v2) >>> 2) &&& 255])
                ++ List.replicate (R - 1 - 1) 0,
              acc.length + 2⟩ := by
        rw [atob2StepV_write _ _ (show (bc + 2) % 4 ≠ 0 by omega)]
        dsimp only
        rw [jsShift_of_mod_three (bc + 2 + 1) (by omega)]
        rw [show acc.length + 1 = (acc ++ [((v0 * 64 + v1) >>> 4) &&& 255]).length by simp]
        rw [setAt_append_replicate _ (R - 1) _ (by omega)]
        simp
      have e4 : atob2StepV ⟨bc + 3, (v0 * 64 + v1) * 64 + v2,
              ((acc ++ [((v0 * 64 + v1) >>> 4) &&& 255])
                  ++ [(((v0 * 64 + v1) * 64 + v2) >>> 2) &&& 255])
                ++ List.replicate (R - 1 - 1) 0,
              acc.length + 2⟩ v3
          = ⟨bc + 4, ((v0 * 64 + v1) * 64 + v2) * 64 + v3,
              (((acc ++ [((v0 * 64 + v1) >>> 4) &&& 255])
                  ++ [(((v0 * 64 + v1) * 64 + v2) >>> 2) &&& 255])
                  ++ [(((v0 * 64 + v1) * 64 + v2) * 64 + v3) &&& 255])
                ++ List.replicate (R - 1 - 1 - 1) 0,
              acc.length + 3⟩ := by
        rw [atob2StepV_write _ _ (show (bc + 3) % 4 ≠ 0 by omega)]
        dsimp only
        rw [jsShift_of_mod_zero (bc + 3 + 1) (by omega), Nat.shiftRight_zero]
        rw [show acc.length + 2
            = ((acc ++ [((v0 * 64 + v1) >>> 4) &&& 255])
                ++ [(((v0 * 64 + v1) * 64 + v2) >>> 2) &&& 255]).length by simp]
        rw [setAt_append_replicate _ (R - 1 - 1) _ (by omega)]
        simp
      rw [List.foldl_cons, e1, List.foldl_cons, e2, List.foldl_cons, e3, List.foldl_cons, e4]
      rw [show acc.length + 3
          = (((acc ++ [((v0 * 64 + v1) >>> 4) &&& 255])
              ++ [(((v0 * 64 + v1) * 64 + v2) >>> 2) &&& 255])
              ++ [(((v0 * 64 + v1) * 64 + v2) * 64 + v3) &&& 255]).length by simp]
      rw [foldl_quads rest
          (((acc ++ [((v0 * 64 + v1) >>> 4) &&& 255])
              ++ [(((v0 * 64 + v1) * 64 + v2) >>> 2) &&& 255])
              ++ [(((v0 * 64 + v1) * 64 + v2) * 64 + v3) &&& 255])
          (R - 1 - 1 - 1) (bc + 4) _ (by omega) (by omega)]
      have hcnt : R - 1 - 1 - 1 - (decodeQuads rest).length
          = R - (3 + (decodeQuads rest).length) := by omega
      rw [hcnt]
      simp [decodeQuads, List.append_assoc]
      omega

theorem atob2_ok_eq (data : List Char) (h : ¬ (postStrip data).length % 4 = 1) :
    atob2 data
      = Except.ok (decodeQuads ((postStrip data).filterMap ctoi)
          ++ List.replicate ((postStrip data).length * 6 / 8
              - 3 * ((postStrip data).filterMap ctoi).length / 4) 0) := by
  have hm : ((postStrip data).filterMap ctoi).length ≤ (postStrip data).length :=
    List.length_filterMap_le _ _
  have hR : (decodeQuads ((postStrip data).filterMap ctoi)).length
      ≤ (postStrip data).length * 6 / 8 := by
    rw [decodeQuads_length]
    omega
  simp only [atob2]
  rw [if_neg h]
  rw [foldl_atob2Step_filterMap]
  have hq := foldl_quads ((postStrip data).filterMap ctoi) []
    ((postStrip data).length * 6 / 8) 0 0 (by norm_num) hR
  simp only [List.nil_append, List.length_nil] at hq
  rw [hq]
  rw [decodeQuads_length]

theorem atob2_error_iff (data : List Char) :
    (∃ e, atob2 data = Except.error e) ↔ (postStrip data).length % 4 = 1 := by
  by_cases h : (postStrip data).length % 4 = 1
  · refine ⟨fun _ => h, fun _ => ⟨"The string is not correctly encoded", ?_⟩⟩
    simp only [atob2]
    rw [if_pos h]
  · refine ⟨?_, fun h1 => absurd h1 h⟩
    rintro ⟨e, he⟩
    rw [atob2_ok_eq data h] at he
    exact absurd he (by simp)

theorem dropWhile_eq_self_of (p : Char → Bool) (l : List Char) (h : ∀ c ∈ l, p c = false) :
    l.dropWhile p = l := by
  cases l with
  | nil => rfl
  | cons a t => simp [List.dropWhile, h a (List.mem_cons_self a t)]

theorem trimJs_eq_self (l : List Char) (h : ∀ c ∈ l, jsWhitespace c = false) :
    trimJs l = l := by
  unfold trimJs
  rw [dropWhile_eq_self_of _ _ h]
  rw [dropWhile_eq_self_of _ _ (fun c hc => h c (List.mem_reverse.mp hc))]
  exact List.reverse_reverse l

theorem stripEq_of_no_pad (l : List Char) (h : ∀ c ∈ l, c ≠ '=') : stripEq l = l := by
  unfold stripEq
  split
  · next x r heq =>
      have hm : ('=' : Char) ∈ l.reverse := by
        rw [heq]
        exact List.mem_cons_self _ _
      exact absurd rfl (h '=' (List.mem_reverse.mp hm))
  · next x r hno heq =>
      have hm : ('=' : Char) ∈ l.reverse := by
        rw [heq]
        exact List.mem_cons_self _ _
      exact absurd rfl (h '=' (List.mem_reverse.mp hm))
  · next x h1 h2 => rfl

theorem stripEq_append_two (cs : List Char) :
    stripEq (cs ++ ['=', '=']) = cs := by
  unfold stripEq
  rw [List.reverse_append]
  simp only [List.reverse_cons, List.reverse_nil, List.nil_append, List.cons_append]
  simp

theorem stripEq_append_one (cs : List Char) (h : ∀ c ∈ cs, c ≠ '=') :
    stripEq (cs ++ ['=']) = cs := by
  unfold stripEq
  rw [List.reverse_append]
  simp only [List.reverse_cons, List.reverse_nil, List.nil_append, List.cons_append]
  cases hc : cs.reverse with
  | nil =>
    have hcs : cs = [] := by
      have := congrArg List.reverse hc
      simpa using this
    subst hcs
    rfl
  | cons a t =>
    have ha : a ≠ '=' := h a (List.mem_reverse.mp (hc ▸ List.mem_cons_self a t))
    split
    · next x r heq =>
        exfalso
        have h2 := heq
        injection h2 with _ h3
        injection h3 with h4 _
        exact ha h4
    · next x r hno heq =>
        have h2 := heq
        injection h2 with _ h3
        rw [← h3, ← hc]
        exact List.reverse_reverse cs
    · next x h1 h2 =>
        exact ((h2 (a :: t)) rfl).elim

theorem ctoi_sextetChar : ∀ v < 64, ctoi (sextetChar v) = some v := by decide

theorem sextetChar_ne_padChar : ∀ v < 64, sextetChar v ≠ '=' := by decide

theorem sextetChar_not_ws : ∀ v < 64, jsWhitespace (sextetChar v) = false := by decide

theorem filterMap_ctoi_map_sextetChar (vs : List Nat) (h : ∀ v ∈ vs, v < 64) :
    (vs.map sextetChar).filterMap ctoi = vs := by
  induction vs with
  | nil => rfl
  | cons v t ih =>
    simp only [List.map_cons, List.filterMap_cons]
    rw [ctoi_sextetChar v (h v (List.mem_cons_self v t))]
    rw [ih (fun x hx => h x (List.mem_cons_of_mem v hx))]

theorem encodeSextets_lt : ∀ B : List Nat, (∀ b ∈ B, b < 256) → ∀ v ∈ encodeSextets B, v < 64
  | [], _, v, hv => by simp [encodeSextets] at hv
  | [b1], h, v, hv => by
      have hb1 : b1 < 256 := h b1 (by simp)
      simp [encodeSextets] at hv
      rcases hv with rfl | rfl <;> omega
  | [b1, b2], h, v, hv => by
      have hb1 : b1 < 256 := h b1 (by simp)
      have hb2 : b2 < 256 := h b2 (by simp)
      simp [encodeSextets] at hv
      rcases hv with rfl | rfl | rfl <;> omega
  | b1 :: b2 :: b3 :: rest, h, v, hv => by
      have hb1 : b1 < 256 := h b1 (by simp)
      have hb2 : b2 < 256 := h b2 (by simp)
      have hb3 : b3 < 256 := h b3 (by simp)
      have ih := encodeSextets_lt rest (fun b hb => h b (by simp [hb]))
      simp [encodeSextets] at hv
      rcases hv with rfl | rfl | rfl | rfl | hv
      · omega
      · omega
      · omega
      · omega
      · exact ih v hv

theorem encodeSextets_length : ∀ B : List Nat,
    (encodeSextets B).length = (4 * B.length + 2) / 3
  | [] => by simp [encodeSextets]
  | [_] => by simp [encodeSextets]
  | [_, _] => by simp [encodeSextets]
  | _ :: _ :: _ :: rest => by
      have ih := encodeSextets_length rest
      simp [encodeSextets, ih]
      omega

theorem decodeQuads_encodeSextets : ∀ B : List Nat, (∀ b ∈ B, b < 256) →
    decodeQuads (encodeSextets B) = B
  | [], _ => rfl
  | [b1], h => by
      have hb1 : b1 < 256 := h b1 (by simp)
      simp only [encodeSextets, decodeQuads]
      rw [and255, Nat.shiftRight_eq_div_pow]
      norm_num
      omega
  | [b1, b2], h => by
      have hb1 : b1 < 256 := h b1 (by simp)
      have hb2 : b2 < 256 := h b2 (by simp)
      simp only [encodeSextets, decodeQuads]
      rw [and255, and255, Nat.shiftRight_eq_div_pow, Nat.shiftRight_eq_div_pow]
      norm_num
      constructor <;> omega
  | b1 :: b2 :: b3 :: rest, h => by
      have hb1 : b1 < 256 := h b1 (by simp)
      have hb2 : b2 < 256 := h b2 (by simp)
      have hb3 : b3 < 256 := h b3 (by simp)
      have ih := decodeQuads_encodeSextets rest (fun b hb => h b (by simp [hb]))
      simp only [encodeSextets, decodeQuads]
      rw [and255, and255, and255, Nat.shiftRight_eq_div_pow, Nat.shiftRight_eq_div_pow]
      norm_num
      refine ⟨by omega, by omega, by omega, ih⟩


theorem trimJs_encodeBase64 (B : List Nat) (h : ∀ b ∈ B, b < 256) :
    trimJs (encodeBase64 B) = encodeBase64 B := by
  apply trimJs_eq_self
  intro c hc
  unfold encodeBase64 at hc
  rcases List.mem_append.mp hc with hc | hc
  · obtain ⟨v, hv, rfl⟩ := List.mem_map.mp hc
    exact sextetChar_not_ws v (encodeSextets_lt B h v hv)
  · have hce : c = '=' := by
      unfold b64pad at hc
      split at hc
      · rcases List.mem_cons.mp hc with h1 | h1
        · exact h1
        · simpa using h1
      · split at hc
        · simpa using hc
        · simp at hc
    subst hce
    decide

theorem encodeBase64_length_mod (B : List Nat) : (encodeBase64 B).length % 4 = 0 := by
  unfold encodeBase64 b64pad
  rw [List.length_append, List.length_map, encodeSextets_length]
  split
  · next h1 => simp only [List.length_cons, List.length_nil]; omega
  · next h1 =>
      split
      · next h2 => simp only [List.length_cons, List.length_nil]; omega
      · next h2 => simp only [List.length_nil]; omega

theorem postStrip_encodeBase64 (B : List Nat) (h : ∀ b ∈ B, b < 256) :
    postStrip (encodeBase64 B) = (encodeSextets B).map sextetChar := by
  have hne : ∀ c ∈ (encodeSextets B).map sextetChar, c ≠ '=' := by
    intro c hc
    obtain ⟨v, hv, rfl⟩ := List.mem_map.mp hc
    exact sextetChar_ne_padChar v (encodeSextets_lt B h v hv)
  unfold postStrip
  rw [trimJs_encodeBase64 B h]
  rw [if_pos (encodeBase64_length_mod B)]
  unfold encodeBase64 b64pad
  split
  · exact stripEq_append_two _
  · split
    · exact stripEq_append_one _ hne
    · rw [List.append_nil]
      exact stripEq_of_no_pad _ hne

theorem atob2_encodeBase64 (B : List Nat) (h : ∀ b ∈ B, b < 256) :
    atob2 (encodeBase64 B) = Except.ok B := by
  have hps := postStrip_encodeBase64 B h
  have hlen : ((encodeSextets B).map sextetChar).length = (4 * B.length + 2) / 3 := by
    rw [List.length_map, encodeSextets_length]
  have hmod : ¬ (postStrip (encodeBase64 B)).length % 4 = 1 := by
    rw [hps, hlen]
    omega
  rw [atob2_ok_eq _ hmod, hps]
  rw [filterMap_ctoi_map_sextetChar _ (encodeSextets_lt B h)]
  rw [decodeQuads_encodeSextets B h]
  rw [hlen, encodeSextets_length]
  have hz : (4 * B.length + 2) / 3 * 6 / 8 - 3 * ((4 * B.length + 2) / 3) / 4 = 0 := by
    omega
  rw [hz]
  simp

/-! ## Registry lemmas -/

theorem mapGet_set_self {α β : Type} [DecidableEq α] (m : List (α × β)) (k : α) (v : β) :
    mapGet (mapSet m k v) k = some v := by
  induction m with
  | nil => simp [mapSet, mapGet]
  | cons p rest ih =>
    obtain ⟨k1, v1⟩ := p
    by_cases h : k1 = k
    · simp [mapSet, mapGet, h]
    · simp [mapSet, mapGet, h, ih]

theorem mapGet_set_ne {α β : Type} [DecidableEq α] (m : List (α × β)) (k k1 : α) (v : β)
    (h : k1 ≠ k) : mapGet (mapSet m k1 v) k = mapGet m k := by
  induction m with
  | nil => simp [mapSet, mapGet, h]
  | cons p rest ih =>
    obtain ⟨k2, v2⟩ := p
    by_cases h2 : k2 = k1
    · subst h2
      simp [mapSet, mapGet, h]
    · have h4 : k ≠ k1 := Ne.symm h
      by_cases h3 : k2 = k
      · simp [mapSet, mapGet, h2, h3, h4]
      · simp [mapSet, mapGet, h2, h3, h4, ih]

theorem mapSet_fresh {α β : Type} [DecidableEq α] (m : List (α × β)) (k : α) (v : β)
    (h : mapGet m k = none) : mapSet m k v = m ++ [(k, v)] := by
  induction m with
  | nil => simp [mapSet]
  | cons p rest ih =>
    obtain ⟨k1, v1⟩ := p
    by_cases h1 : k1 = k
    · simp [mapGet, h1] at h
    · simp [mapGet, h1] at h
      simp [mapSet, h1, ih h]

theorem mapGet_none_of_lt (m : List (Nat × RegInfo)) (c j : Nat)
    (hInv : ∀ p ∈ m, p.1 < c) (hj : c ≤ j) : mapGet m j = none := by
  induction m with
  | nil => rfl
  | cons p rest ih =>
    obtain ⟨k1, v1⟩ := p
    have hk : k1 < c := hInv (k1, v1) (List.mem_cons_self _ _)
    have hne : k1 ≠ j := by omega
    simp [mapGet, hne]
    exact ih (fun p hp => hInv p (List.mem_cons_of_mem _ hp))

theorem resolveMany_spec : ∀ (reqs : List String) (st : PluginState),
    (∀ p ∈ st.infoByUid, p.1 < st.uniqueIdCounter) →
    (resolveMany st reqs).uniqueIdCounter = st.uniqueIdCounter + reqs.length
    ∧ (resolveMany st reqs).infoByUid.map Prod.fst
        = st.infoByUid.map Prod.fst ++ List.range' st.uniqueIdCounter reqs.length
    ∧ (∀ p ∈ (resolveMany st reqs).infoByUid,
        p.1 < (resolveMany st reqs).uniqueIdCounter) := by
  intro reqs
  induction reqs with
  | nil =>
    intro st hInv
    refine ⟨by simp [resolveMany], by simp [resolveMany], ?_⟩
    simpa [resolveMany] using hInv
  | cons r rest ih =>
    intro st hInv
    have hfresh : mapGet st.infoByUid st.uniqueIdCounter = none :=
      mapGet_none_of_lt _ _ _ hInv (Nat.le_refl _)
    have hByUid : (registerOne st r).infoByUid
        = st.infoByUid ++ [(st.uniqueIdCounter,
            { importStr := r, uniqueId := st.uniqueIdCounter })] := by
      simp [registerOne, mapSet_fresh _ _ _ hfresh]
    have hInv1 : ∀ p ∈ (registerOne st r).infoByUid,
        p.1 < (registerOne st r).uniqueIdCounter := by
      intro p hp
      rw [hByUid] at hp
      rcases List.mem_append.mp hp with hp | hp
      · have := hInv p hp
        simp [registerOne]
        omega
      · simp at hp
        simp [registerOne, hp]
    have hstep : resolveMany st (r :: rest) = resolveMany (registerOne st r) rest := rfl
    obtain ⟨ihc, ihm, ihi⟩ := ih (registerOne st r) hInv1
    refine ⟨?_, ?_, ?_⟩
    · rw [hstep, ihc]
      simp only [registerOne, List.length_cons]
      omega
    · rw [hstep, ihm, hByUid]
      simp [registerOne]
      exact (List.range'_succ _ _ _).symm
    · rw [hstep] at *
      exact ihi

theorem resolveMany001_spec : ∀ (reqs : List String) (st : PluginState),
    (∀ p ∈ st.infoByUid, p.1 < st.uniqueIdCounter) →
    (∀ r ∈ reqs, mapGet st.infoByImport r = none) →
    reqs.Nodup →
    (resolveMany001 st reqs).uniqueIdCounter = st.uniqueIdCounter + reqs.length
    ∧ (resolveMany001 st reqs).infoByUid.map Prod.fst
        = st.infoByUid.map Prod.fst ++ List.range' st.uniqueIdCounter reqs.length := by
  intro reqs
  induction reqs with
  | nil =>
    intro st hInv habs hnd
    exact ⟨by simp [resolveMany001], by simp [resolveMany001]⟩
  | cons r rest ih =>
    intro st hInv habs hnd
    have hr : mapGet st.infoByImport r = none := habs r (List.mem_cons_self _ _)
    have hguard : registerOne001 st r = registerOne st r := by
      simp [registerOne001, hr]
    have hfresh : mapGet st.infoByUid st.uniqueIdCounter = none :=
      mapGet_none_of_lt _ _ _ hInv (Nat.le_refl _)
    have hByUid : (registerOne st r).infoByUid
        = st.infoByUid ++ [(st.uniqueIdCounter,
            { importStr := r, uniqueId := st.uniqueIdCounter })] := by
      simp [registerOne, mapSet_fresh _ _ _ hfresh]
    have hInv1 : ∀ p ∈ (registerOne st r).infoByUid,
        p.1 < (registerOne st r).uniqueIdCounter := by
      intro p hp
      rw [hByUid] at hp
      rcases List.mem_append.mp hp with hp | hp
      · have := hInv p hp
        simp [registerOne]
        omega
      · simp at hp
        simp [registerOne, hp]
    have habs1 : ∀ r1 ∈ rest, mapGet (registerOne st r).infoByImport r1 = none := by
      intro r1 hr1
      have hne : r ≠ r1 := by
        intro hcontra
        subst hcontra
        exact (List.nodup_cons.mp hnd).1 hr1
      show mapGet (mapSet st.infoByImport r _) r1 = none
      rw [mapGet_set_ne _ _ _ _ hne]
      exact habs r1 (List.mem_cons_of_mem _ hr1)
    have hnd1 : rest.Nodup := (List.nodup_cons.mp hnd).2
    have hstep : resolveMany001 st (r :: rest) = resolveMany001 (registerOne st r) rest := by
      simp [resolveMany001, hguard]
    obtain ⟨ihc, ihm⟩ := ih (registerOne st r) hInv1 habs1 hnd1
    refine ⟨?_, ?_⟩
    · rw [hstep, ihc]
      simp only [registerOne, List.length_cons]
      omega
    · rw [hstep, ihm, hByUid]
      simp [registerOne]
      exact (List.range'_succ _ _ _).symm

/-! ## Configuration-resolution lemmas -/

theorem jsOr_assoc (x y z : Option String) : jsOr (jsOr x y) z = jsOr x (jsOr y z) := by
  by_cases hx : jsTruthy x <;> simp [jsOr, hx]

theorem resolveOk000_fields (importer id : String) (q a cb ft : FileOpts)
    (cfg : ResolvedConfig) (h : resolveConfig000 importer id q a cb ft = Except.ok cfg) :
    cfg.location = specFirstNonEmpty [q.location, a.location, cb.location, ft.location] "inline"
    ∧ cfg.mode = specFirstNonEmpty [q.mode, a.mode, cb.mode, ft.mode] "blob"
    ∧ cfg.mime
        = specFirstNonEmpty [q.mime, a.mime, cb.mime, ft.mime] "application/octet-stream"
    ∧ cfg.timing = specFirstNonEmpty [q.timing, a.timing, cb.timing, ft.timing] "async" := by
  simp only [resolveConfig000, mergeOptions] at h
  split_ifs at h <;>
    first
      | exact Except.noConfusion h
      | (obtain rfl : _ = cfg := Except.ok.inj h
         simp only [specFirstNonEmpty, List.foldr]
         refine ⟨?_, ?_, ?_, ?_⟩ <;> rw [jsOr_assoc])

theorem resolveOk001_fields (importer id : String) (q a cb ft : FileOpts001)
    (cfg : ResolvedConfig001) (h : resolveConfig001 importer id q a cb ft = Except.ok cfg) :
    cfg.location = specFirstNonEmpty [q.location, a.location, ft.location, cb.location] "inline"
    ∧ cfg.mode = specFirstNonEmpty [q.mode, a.mode, ft.mode, cb.mode] "blob"
    ∧ cfg.mime
        = specFirstNonEmpty [q.mime, a.mime, ft.mime, cb.mime] "application/octet-stream" := by
  simp only [resolveConfig001, mergeOptions001] at h
  split_ifs at h <;>
    first
      | exact Except.noConfusion h
      | (obtain rfl : _ = cfg := Except.ok.inj h
         simp only [specFirstNonEmpty, List.foldr]
         refine ⟨?_, ?_, ?_⟩ <;> rw [jsOr_assoc])

theorem resolveConflict000_location (importer id : String) (q a cb ft : FileOpts)
    (ha : jsTruthy a.location = true) (hq : jsTruthy q.location = true)
    (hne : a.location ≠ q.location) :
    resolveConfig000 importer id q a cb ft
      = Except.error (conflictMsg importer id (a.location.getD "")) := by
  simp only [resolveConfig000]
  rw [if_pos ⟨ha, hq, hne⟩]

/-! ## JSON string-literal round-trip lemmas -/

theorem char_ofNat_toNat (c : Char) (h : c.toNat < 55296) : Char.ofNat c.toNat = c := by
  have hv : Nat.isValidChar c.toNat := Or.inl h
  unfold Char.ofNat
  rw [dif_pos hv]
  apply Char.ext
  simp [Char.ofNatAux, Char.toNat] at *
  apply UInt32.ext
  simp [UInt32.toNat] at *

theorem hexVal_hexDigit : ∀ n < 16, hexVal (hexDigit n) = some n := by decide

set_option maxHeartbeats 1600000 in
theorem jsonUnescape_escape (l rem : List Char) :
    jsonUnescape ((l.map jsonEscapeChar).flatten ++ '"' :: rem) = some (l, rem) := by
  induction l with
  | nil =>
    show jsonUnescape ([] ++ '"' :: rem) = some ([], rem)
    rw [List.nil_append]
    unfold jsonUnescape
    simp
  | cons c t ih =>
    simp only [List.map_cons, List.flatten_cons, List.append_assoc]
    set L := (t.map jsonEscapeChar).flatten ++ '"' :: rem with hL
    have h0 : hexVal '0' = some 0 := by decide
    unfold jsonEscapeChar
    split_ifs with h1 h2 h3 h4 h5 h6 h7 h8
    · subst h1
      unfold jsonUnescape
      simp [jsonEscMap, jsonCons, ih]
    · subst h2
      unfold jsonUnescape
      simp [jsonEscMap, jsonCons, ih]
    · subst h3
      unfold jsonUnescape
      simp [jsonEscMap, jsonCons, ih]
    · subst h4
      unfold jsonUnescape
      simp [jsonEscMap, jsonCons, ih]
    · subst h5
      unfold jsonUnescape
      simp [jsonEscMap, jsonCons, ih]
    · subst h6
      unfold jsonUnescape
      simp [jsonEscMap, jsonCons, ih]
    · subst h7
      unfold jsonUnescape
      simp [jsonEscMap, jsonCons, ih]
    · unfold jsonUnescape
      simp only [List.cons_append, List.nil_append]
      simp [h0, hexVal_hexDigit (c.toNat / 16) (by omega),
        hexVal_hexDigit (c.toNat % 16) (by omega), ih, jsonCons]
      rw [show c.toNat / 16 * 16 + c.toNat % 16 = c.toNat from by omega]
      exact char_ofNat_toNat c (by omega)
    · unfold jsonUnescape
      simp only [List.cons_append, List.nil_append]
      simp [h1, h2, h8, jsonCons, ih]

theorem jsonParseStringLit_stringify (s : String) :
    jsonParseStringLit (jsonStringifyStr s) = some s := by
  have hq : jsonWs '"' = false := by decide
  have h1 : (jsonStringifyStr s).toList.dropWhile jsonWs
      = '"' :: ((s.toList.map jsonEscapeChar).flatten ++ '"' :: []) := by
    unfold jsonStringifyStr
    rw [show (String.mk (('"' :: (s.toList.map jsonEscapeChar).flatten) ++ ['"'])).toList
        = '"' :: ((s.toList.map jsonEscapeChar).flatten ++ '"' :: []) from by simp]
    simp [List.dropWhile, hq]
  unfold jsonParseStringLit
  rw [h1]
  dsimp only
  rw [if_pos rfl]
  rw [jsonUnescape_escape s.toList []]
  dsimp only
  rw [if_pos (show List.dropWhile jsonWs [] = [] from rfl)]
  rfl

theorem renderJsonSubst_ok (s : String) : renderJsonSubst (some s) = Except.ok s := by
  simp [renderJsonSubst, jsonParseStringLit_stringify s]

/-! ## Substring lemmas for error-message statements -/

theorem leadsList_self_append (xs ys : List Char) : leadsList xs (xs ++ ys) = true := by
  induction xs with
  | nil => rfl
  | cons a t ih => simp [leadsList, ih]

theorem occursIn_self_append (xs post : List Char) : occursIn xs (xs ++ post) = true := by
  cases xs with
  | nil =>
    cases post with
    | nil => rfl
    | cons c r => simp [occursIn, leadsList]
  | cons x xt =>
    simp [occursIn, leadsList, leadsList_self_append]

theorem occursIn_cons_of (needle : List Char) (c : Char) (rest : List Char)
    (h : occursIn needle rest = true) : occursIn needle (c :: rest) = true := by
  simp [occursIn, h]

theorem occursIn_append_left (needle pre l : List Char)
    (h : occursIn needle l = true) : occursIn needle (pre ++ l) = true := by
  induction pre with
  | nil => simpa using h
  | cons c t ih => simpa using occursIn_cons_of needle c (t ++ l) ih

/-! ## Claims -/

/-- C1 (amended).  Effective configuration is resolved per field
independently, each field taking the first value that is non-empty in
JavaScript truthiness, with fallbacks location inline, mode blob, mime
application/octet-stream, timing async.  In the part_000 variant the
precedence is query over assertion over path-callback over
extension-default over fallback; in the part_001 variant the
extension-default outranks the path-callback (its mergeOptions call takes
the fileTypes entry as target), and there is no timing channel.  With
extension default mode text, path callback mode json and query mode blob
the resolved mode is blob; with no query and no assertion, the part_000
variant resolves mode json (callback beats extension default). -/
theorem c1_field_precedence :
    (∀ (importer id : String) (q a cb ft : FileOpts) (cfg : ResolvedConfig),
        resolveConfig000 importer id q a cb ft = Except.ok cfg →
        cfg.location
            = specFirstNonEmpty [q.location, a.location, cb.location, ft.location] "inline"
        ∧ cfg.mode = specFirstNonEmpty [q.mode, a.mode, cb.mode, ft.mode] "blob"
        ∧ cfg.mime
            = specFirstNonEmpty [q.mime, a.mime, cb.mime, ft.mime] "application/octet-stream"
        ∧ cfg.timing = specFirstNonEmpty [q.timing, a.timing, cb.timing, ft.timing] "async")
    ∧ (∀ (importer id : String) (q a cb ft : FileOpts001) (cfg : ResolvedConfig001),
        resolveConfig001 importer id q a cb ft = Except.ok cfg →
        cfg.location
            = specFirstNonEmpty [q.location, a.location, ft.location, cb.location] "inline"
        ∧ cfg.mode = specFirstNonEmpty [q.mode, a.mode, ft.mode, cb.mode] "blob"
        ∧ cfg.mime
            = specFirstNonEmpty [q.mime, a.mime, ft.mime, cb.mime] "application/octet-stream")
    ∧ resolveConfig000 "imp.js" "datafile:a.bin?mode=blob"
        { mode := some "blob" } {} { mode := some "json" } { mode := some "text" }
        = Except.ok
            { location := "inline", mode := "blob", timing := "async",
              mime := "application/octet-stream" }
    ∧ resolveConfig001 "imp.js" "datafile:a.bin?mode=blob"
        { mode := some "blob" } {} { mode := some "json" } { mode := some "text" }
        = Except.ok
            { location := "inline", mode := "blob",
              mime := "application/octet-stream" }
    ∧ resolveConfig000 "imp.js" "datafile:a.bin"
        {} {} { mode := some "json" } { mode := some "text" }
        = Except.ok
            { location := "inline", mode := "json", timing := "async",
              mime := "application/octet-stream" } :=
  ⟨resolveOk000_fields, resolveOk001_fields, by decide, by decide, by decide⟩

/-- C1 counterexample: in the part_001 variant, with extension default mode
text and path-callback mode json and no query or assertion, the resolved
mode is text, not json: the path-callback does not beat the extension
default there, contradicting the claim as stated. -/
theorem c1_counterexample :
    resolveConfig001 "imp.js" "datafile:a.bin"
        {} {} { mode := some "json" } { mode := some "text" }
      = Except.ok
          { location := "inline", mode := "text",
            mime := "application/octet-stream" }
    ∧ ("text" : String) ≠ "json" :=
  ⟨by decide, by decide⟩

/-- C1 witness: the amended theorem applied at concrete inputs. -/
theorem c1_witness :
    specFirstNonEmpty [some "blob", none, some "json", some "text"] "blob" = "blob"
    ∧ specFirstNonEmpty [none, none, some "json", some "text"] "blob" = "json" := by
  have h1 := c1_field_precedence.1 "imp.js" "datafile:a.bin?mode=blob"
    { mode := some "blob" } {} { mode := some "json" } { mode := some "text" }
    { location := "inline", mode := "blob", timing := "async",
      mime := "application/octet-stream" } (by decide)
  have h2 := c1_field_precedence.1 "imp.js" "datafile:a.bin"
    {} {} { mode := some "json" } { mode := some "text" }
    { location := "inline", mode := "json", timing := "async",
      mime := "application/octet-stream" } (by decide)
  exact ⟨h1.2.1.symm, h2.2.1.symm⟩

/-- C2 (code bug).  The mode json branch of renderChunk computes
JSON.parse(JSON.stringify(text)), which is the identity on every string: the
raw UTF-8 text is copied through unchanged and no parse failure is ever
raised, for valid and invalid JSON alike.  The comment in the source says
the intent is to make sure the data is actually JSON, and the spec says a
parse failure must abort the build, but this code path cannot fail. -/
theorem c2_json_substitution :
    renderJsonSubst (some "][ this is not JSON") = Except.ok "][ this is not JSON"
    ∧ (∀ s : String, renderJsonSubst (some s) = Except.ok s) :=
  ⟨renderJsonSubst_ok _, renderJsonSubst_ok⟩

theorem resolveConflict000_mime (importer id : String) (q a cb ft : FileOpts)
    (hn1 : ¬(jsTruthy a.location = true ∧ jsTruthy q.location = true
        ∧ a.location ≠ q.location))
    (h : jsTruthy a.mime = true ∧ jsTruthy q.mime = true ∧ a.mime ≠ q.mime) :
    resolveConfig000 importer id q a cb ft
      = Except.error (conflictMsg importer id (a.mime.getD "")) := by
  simp only [resolveConfig000]
  rw [if_neg hn1, if_pos h]

theorem resolveConflict000_mode (importer id : String) (q a cb ft : FileOpts)
    (hn1 : ¬(jsTruthy a.location = true ∧ jsTruthy q.location = true
        ∧ a.location ≠ q.location))
    (hn2 : ¬(jsTruthy a.mime = true ∧ jsTruthy q.mime = true ∧ a.mime ≠ q.mime))
    (h : jsTruthy a.mode = true ∧ jsTruthy q.mode = true ∧ a.mode ≠ q.mode) :
    resolveConfig000 importer id q a cb ft
      = Except.error (conflictMsg importer id (a.mode.getD "")) := by
  simp only [resolveConfig000]
  rw [if_neg hn1, if_neg hn2, if_pos h]

theorem resolveConflict000_timing (importer id : String) (q a cb ft : FileOpts)
    (hn1 : ¬(jsTruthy a.location = true ∧ jsTruthy q.location = true
        ∧ a.location ≠ q.location))
    (hn2 : ¬(jsTruthy a.mime = true ∧ jsTruthy q.mime = true ∧ a.mime ≠ q.mime))
    (hn3 : ¬(jsTruthy a.mode = true ∧ jsTruthy q.mode = true ∧ a.mode ≠ q.mode))
    (h : jsTruthy a.timing = true ∧ jsTruthy q.timing = true ∧ a.timing ≠ q.timing) :
    resolveConfig000 importer id q a cb ft
      = Except.error (conflictMsg importer id (a.timing.getD "")) := by
  simp only [resolveConfig000]
  rw [if_neg hn1, if_neg hn2, if_neg hn3, if_pos h]

theorem conflictMsg_names (imp idStr v : String) :
    occursIn imp.toList (conflictMsg imp idStr v).toList = true
    ∧ occursIn idStr.toList (conflictMsg imp idStr v).toList = true
    ∧ occursIn v.toList (conflictMsg imp idStr v).toList = true := by
  refine ⟨?_, ?_, ?_⟩
  · rw [show (conflictMsg imp idStr v).toList
        = imp.toList ++ (" imported " ++ idStr ++ ", but specified "
            ++ v ++ " via its import assertion.").toList from by
      simp [conflictMsg, String.toList]]
    exact occursIn_self_append _ _
  · rw [show (conflictMsg imp idStr v).toList
        = (imp ++ " imported ").toList ++ (idStr.toList
            ++ (", but specified " ++ v ++ " via its import assertion.").toList) from by
      simp [conflictMsg, String.toList]]
    exact occursIn_append_left _ _ _ (occursIn_self_append _ _)
  · rw [show (conflictMsg imp idStr v).toList
        = (imp ++ " imported " ++ idStr ++ ", but specified ").toList
            ++ (v.toList ++ (" via its import assertion.").toList) from by
      simp [conflictMsg, String.toList]]
    exact occursIn_append_left _ _ _ (occursIn_self_append _ _)

/-- C3 (amended).  When the import-assertion channel and the query channel
both give a truthy value for the same field (location, mime, mode or
timing) and the two values differ, resolveConfig000 fails with the
configuration error built by conflictMsg rather than silently letting one
channel win: the four per-field clauses below give the exact error for the
first conflicting field in source order (location, then mime, then mode,
then timing), and any conflict at all rules out a successful resolution.
Every such message names the importer, the import string and the
assertion-channel value of the conflicting field, but interpolates only
the assertion-channel value, not the query value (the query value is
visible only insofar as it is legible inside the import string, which
percent-encoding defeats). -/
theorem c3_conflict_error (importer id : String) (q a cb ft : FileOpts) :
    ((jsTruthy a.location = true ∧ jsTruthy q.location = true ∧ a.location ≠ q.location) →
      resolveConfig000 importer id q a cb ft
        = Except.error (conflictMsg importer id (a.location.getD "")))
    ∧ (¬(jsTruthy a.location = true ∧ jsTruthy q.location = true ∧ a.location ≠ q.location) →
        (jsTruthy a.mime = true ∧ jsTruthy q.mime = true ∧ a.mime ≠ q.mime) →
      resolveConfig000 importer id q a cb ft
        = Except.error (conflictMsg importer id (a.mime.getD "")))
    ∧ (¬(jsTruthy a.location = true ∧ jsTruthy q.location = true ∧ a.location ≠ q.location) →
        ¬(jsTruthy a.mime = true ∧ jsTruthy q.mime = true ∧ a.mime ≠ q.mime) →
        (jsTruthy a.mode = true ∧ jsTruthy q.mode = true ∧ a.mode ≠ q.mode) →
      resolveConfig000 importer id q a cb ft
        = Except.error (conflictMsg importer id (a.mode.getD "")))
    ∧ (¬(jsTruthy a.location = true ∧ jsTruthy q.location = true ∧ a.location ≠ q.location) →
        ¬(jsTruthy a.mime = true ∧ jsTruthy q.mime = true ∧ a.mime ≠ q.mime) →
        ¬(jsTruthy a.mode = true ∧ jsTruthy q.mode = true ∧ a.mode ≠ q.mode) →
        (jsTruthy a.timing = true ∧ jsTruthy q.timing = true ∧ a.timing ≠ q.timing) →
      resolveConfig000 importer id q a cb ft
        = Except.error (conflictMsg importer id (a.timing.getD "")))
    ∧ (((jsTruthy a.location = true ∧ jsTruthy q.location = true ∧ a.location ≠ q.location)
        ∨ (jsTruthy a.mime = true ∧ jsTruthy q.mime = true ∧ a.mime ≠ q.mime)
        ∨ (jsTruthy a.mode = true ∧ jsTruthy q.mode = true ∧ a.mode ≠ q.mode)
        ∨ (jsTruthy a.timing = true ∧ jsTruthy q.timing = true ∧ a.timing ≠ q.timing)) →
      ∀ cfg : ResolvedConfig, resolveConfig000 importer id q a cb ft ≠ Except.ok cfg)
    ∧ (∀ imp idStr v : String,
        occursIn imp.toList (conflictMsg imp idStr v).toList = true
        ∧ occursIn idStr.toList (conflictMsg imp idStr v).toList = true
        ∧ occursIn v.toList (conflictMsg imp idStr v).toList = true) := by
  have hloc : (jsTruthy a.location = true ∧ jsTruthy q.location = true
      ∧ a.location ≠ q.location) →
      resolveConfig000 importer id q a cb ft
        = Except.error (conflictMsg importer id (a.location.getD "")) :=
    fun h => resolveConflict000_location importer id q a cb ft h.1 h.2.1 h.2.2
  have hmime := resolveConflict000_mime importer id q a cb ft
  have hmode := resolveConflict000_mode importer id q a cb ft
  have htiming := resolveConflict000_timing importer id q a cb ft
  refine ⟨hloc, hmime, hmode, htiming, ?_, conflictMsg_names⟩
  intro h cfg hok
  by_cases h1 : jsTruthy a.location = true ∧ jsTruthy q.location = true
      ∧ a.location ≠ q.location
  · rw [hloc h1] at hok
    exact Except.noConfusion hok
  · by_cases h2 : jsTruthy a.mime = true ∧ jsTruthy q.mime = true ∧ a.mime ≠ q.mime
    · rw [hmime h1 h2] at hok
      exact Except.noConfusion hok
    · by_cases h3 : jsTruthy a.mode = true ∧ jsTruthy q.mode = true ∧ a.mode ≠ q.mode
      · rw [hmode h1 h2 h3] at hok
        exact Except.noConfusion hok
      · by_cases h4 : jsTruthy a.timing = true ∧ jsTruthy q.timing = true
            ∧ a.timing ≠ q.timing
        · rw [htiming h1 h2 h3 h4] at hok
          exact Except.noConfusion hok
        · rcases h with h | h | h | h
          · exact h1 h
          · exact h2 h
          · exact h3 h
          · exact h4 h

/-- C3 counterexample: with the query value arriving percent-encoded in
the import string, the conflict error message does not contain the
query-channel value inline at all, so it does not name both conflicting
values; it names only the assertion-channel value. -/
theorem c3_counterexample :
    resolveConfig000 "imp.js" "datafile:foo.bin?location=inlin%65"
        { location := some "inline" } { location := some "asset" } {} {}
      = Except.error "imp.js imported datafile:foo.bin?location=inlin%65, but specified asset via its import assertion."
    ∧ occursIn "inline".toList
        "imp.js imported datafile:foo.bin?location=inlin%65, but specified asset via its import assertion.".toList
      = false
    ∧ occursIn "asset".toList
        "imp.js imported datafile:foo.bin?location=inlin%65, but specified asset via its import assertion.".toList
      = true :=
  ⟨by decide, by decide, by decide⟩

/-- C3 witness: the amended theorem applied at concrete conflicting
inputs, one per field. -/
theorem c3_witness :
    resolveConfig000 "imp.js" "datafile:f.bin?location=inline"
        { location := some "inline" } { location := some "asset" } {} {}
      = Except.error (conflictMsg "imp.js" "datafile:f.bin?location=inline" "asset")
    ∧ resolveConfig000 "imp.js" "datafile:f.bin?mime=text/css"
        { mime := some "text/css" } { mime := some "text/html" } {} {}
      = Except.error (conflictMsg "imp.js" "datafile:f.bin?mime=text/css" "text/html")
    ∧ resolveConfig000 "imp.js" "datafile:f.bin?mode=text"
        { mode := some "text" } { mode := some "json" } {} {}
      = Except.error (conflictMsg "imp.js" "datafile:f.bin?mode=text" "json")
    ∧ resolveConfig000 "imp.js" "datafile:f.bin?timing=sync"
        { timing := some "sync" } { timing := some "async" } {} {}
      = Except.error (conflictMsg "imp.js" "datafile:f.bin?timing=sync" "async") :=
  ⟨(c3_conflict_error "imp.js" "datafile:f.bin?location=inline"
      { location := some "inline" } { location := some "asset" } {} {}).1 (by decide),
   (c3_conflict_error "imp.js" "datafile:f.bin?mime=text/css"
      { mime := some "text/css" } { mime := some "text/html" } {} {}).2.1
      (by decide) (by decide),
   (c3_conflict_error "imp.js" "datafile:f.bin?mode=text"
      { mode := some "text" } { mode := some "json" } {} {}).2.2.1
      (by decide) (by decide) (by decide),
   (c3_conflict_error "imp.js" "datafile:f.bin?timing=sync"
      { timing := some "sync" } { timing := some "async" } {} {}).2.2.2.1
      (by decide) (by decide) (by decide) (by decide)⟩

/-- C4.  Decoding the standard base64 encoding of any byte sequence with
the runtime helper atob2 returns exactly the original bytes. -/
theorem c4_base64_roundtrip (B : List Nat) (h : ∀ b ∈ B, b < 256) :
    atob2 (encodeBase64 B) = Except.ok B :=
  atob2_encodeBase64 B h

/-- C4 witness: the round trip at a concrete byte sequence. -/
theorem c4_witness :
    atob2 (encodeBase64 [104, 105, 255, 0]) = Except.ok [104, 105, 255, 0] :=
  c4_base64_roundtrip [104, 105, 255, 0] (by decide)

/-- C5.  Registering N distinct import request strings from the fresh state
assigns identities 0 to N-1: the by-identity index lists exactly the keys
0, 1, ..., N-1 in registration order (dense, no gaps, no repeats, one entry
per identity), and the counter ends at N.  This holds both for the part_000
variant (no registration guard) and the part_001 variant (guarded). -/
theorem c5_identity_density (reqs : List String) (h : reqs.Nodup) :
    ((resolveMany initState reqs).uniqueIdCounter = reqs.length
      ∧ (resolveMany initState reqs).infoByUid.map Prod.fst = List.range reqs.length)
    ∧ ((resolveMany001 initState reqs).uniqueIdCounter = reqs.length
      ∧ (resolveMany001 initState reqs).infoByUid.map Prod.fst
          = List.range reqs.length) := by
  have h0 : ∀ p ∈ initState.infoByUid, p.1 < initState.uniqueIdCounter := by
    simp [initState]
  have habs : ∀ r ∈ reqs, mapGet initState.infoByImport r = none := by
    simp [initState, mapGet]
  obtain ⟨c0, m0, _⟩ := resolveMany_spec reqs initState h0
  obtain ⟨c1, m1⟩ := resolveMany001_spec reqs initState h0 habs h
  refine ⟨⟨?_, ?_⟩, ?_, ?_⟩
  · simpa [initState] using c0
  · rw [m0]
    simp [initState, List.range_eq_range']
  · simpa [initState] using c1
  · rw [m1]
    simp [initState, List.range_eq_range']

/-- C5 witness: three distinct requests yield identities 0, 1, 2. -/
theorem c5_witness :
    ((resolveMany initState ["a", "b", "c"]).uniqueIdCounter = 3
      ∧ (resolveMany initState ["a", "b", "c"]).infoByUid.map Prod.fst = List.range 3)
    ∧ ((resolveMany001 initState ["a", "b", "c"]).uniqueIdCounter = 3
      ∧ (resolveMany001 initState ["a", "b", "c"]).infoByUid.map Prod.fst
          = List.range 3) :=
  c5_identity_density ["a", "b", "c"] (by decide)

/-- C6.  The decoder trims surrounding whitespace, strips one or two
trailing padding characters only when the trimmed length is a multiple of
4, and signals its decode error exactly for inputs whose remaining length
modulo 4 equals 1. -/
theorem c6_malformed_length :
    (∀ data : List Char,
        (∃ e, atob2 data = Except.error e) ↔ (postStrip data).length % 4 = 1)
    ∧ (∀ data : List Char, (trimJs data).length % 4 = 0 →
        postStrip data = stripEq (trimJs data))
    ∧ (∀ data : List Char, (trimJs data).length % 4 ≠ 0 →
        postStrip data = trimJs data)
    ∧ (∀ l : List Char,
        stripEq l = l ∨ l = stripEq l ++ ['='] ∨ l = stripEq l ++ ['=', '=']) := by
  refine ⟨atob2_error_iff, ?_, ?_, ?_⟩
  · intro data h
    simp [postStrip, h]
  · intro data h
    simp [postStrip, h]
  · intro l
    unfold stripEq
    split
    · next x r heq =>
        right; right
        have h2 := congrArg List.reverse heq
        simpa using h2
    · next x r hno heq =>
        right; left
        have h2 := congrArg List.reverse heq
        simpa using h2
    · next x h1 h2 =>
        left; rfl

/-- C6 witness: the conditional-strip branches at concrete inputs. -/
theorem c6_witness :
    postStrip ("aGk=".toList) = stripEq (trimJs ("aGk=".toList))
    ∧ postStrip ("aGkA=".toList) = trimJs ("aGkA=".toList) :=
  ⟨c6_malformed_length.2.1 ("aGk=".toList) (by decide),
   c6_malformed_length.2.2.1 ("aGkA=".toList) (by decide)⟩

/-- C7 (amended).  During decoding, a character that ctoi does not map is
skipped and contributes nothing to the loop state, and the characters ctoi
maps are exactly the 65 characters of the itoc table: the 64 alphabet
symbols and the padding character, which ctoi maps to the value 64, so a
padding character that survives the conditional strip does contribute bits.
The packing loop processes exactly the mapped characters. -/
theorem c7_skip_behavior :
    (∀ (st : Atob2State) (c : Char), ctoi c = none → atob2Step st c = st)
    ∧ (∀ c : Char, ctoi c = none ↔ c ∉ itoc)
    ∧ ctoi '=' = some 64
    ∧ (∀ (t : List Char) (st : Atob2State),
        t.foldl atob2Step st = (t.filterMap ctoi).foldl atob2StepV st) := by
  refine ⟨?_, ?_, by decide, foldl_atob2Step_filterMap⟩
  · intro st c h
    simp [atob2Step, h]
  · intro c
    rw [show ctoi c = itoc.findIdx? (fun d => d = c) from rfl]
    rw [List.findIdx?_eq_none_iff]
    constructor
    · intro h hc
      have := h c hc
      simp at this
    · intro h d hd
      simp only [decide_eq_false_iff_not]
      intro hdc
      subst hdc
      exact h hd

/-- C7 counterexample: the padding character is not one of the 64 alphabet
symbols, yet the loop does not skip it: it changes the state, and in the
decode of Q=A the middle padding character contributes the value 64 to the
output bytes (68 in the first byte instead of the 64 a skip would give). -/
theorem c7_counterexample :
    ('=' ∉ alphabet64)
    ∧ atob2Step { bc := 1, bs := 16, ret := [0, 0], outPos := 0 } '='
        ≠ { bc := 1, bs := 16, ret := [0, 0], outPos := 0 }
    ∧ atob2 ("Q=A".toList) = Except.ok [68, 0] :=
  ⟨by decide, by decide, by decide⟩

/-- C7 witness: the skip clause applied to a concrete unmapped character. -/
theorem c7_witness :
    atob2Step { bc := 0, bs := 0, ret := [], outPos := 0 } '!'
      = { bc := 0, bs := 0, ret := [], outPos := 0 } :=
  c7_skip_behavior.1 { bc := 0, bs := 0, ret := [], outPos := 0 } '!' (by decide)

/-- C8 (amended).  The decodeAsset helpers await a thenable recursively; a
settled ok response has its shape-specific extraction applied; a settled
not-ok response resolves to the backup when the backup is non-null, and
with a null backup fails with the error naming the HTTP status.  However,
only decodeAssetBlob defaults its backup to null: decodeAssetText,
decodeAssetJson and decodeAssetArrayBuffer default the backup to the empty
string, so called without a caller-supplied backup they resolve to the
empty string on a not-ok response instead of failing, and
decodeAssetResponse always supplies the response itself as its backup. -/
theorem c8_not_ok_handling :
    (∀ (β : Type) (r : ResponseLike) (action : RespData → β) (backup : Option β),
        decodeAssetShared (ResponseLike.pending r) action backup
          = decodeAssetShared r action backup)
    ∧ (∀ (β : Type) (d : RespData) (action : RespData → β) (backup : Option β),
        d.ok = true →
        decodeAssetShared (ResponseLike.settled d) action backup = Except.ok (action d))
    ∧ (∀ (β : Type) (d : RespData) (action : RespData → β) (b : β),
        d.ok = false →
        decodeAssetShared (ResponseLike.settled d) action (some b) = Except.ok b)
    ∧ (∀ (β : Type) (d : RespData) (action : RespData → β),
        d.ok = false →
        decodeAssetShared (ResponseLike.settled d) action none
          = Except.error
              ("Critical error: could not load file: HTTP response " ++ toString d.status))
    ∧ (∀ (r : ResponseLike) (b : Option JsVal),
        decodeAssetBlob r b = decodeAssetShared r (fun d => d.blobData) b
        ∧ decodeAssetText r b = decodeAssetShared r (fun d => d.textData) b
        ∧ decodeAssetJson r b = decodeAssetShared r (fun d => d.jsonData) b
        ∧ decodeAssetArrayBuffer r b = decodeAssetShared r (fun d => d.bufData) b)
    ∧ (∀ r : ResponseLike,
        decodeAssetBlob r = decodeAssetShared r (fun d => d.blobData) none
        ∧ decodeAssetText r = decodeAssetShared r (fun d => d.textData) (some (JsVal.str ""))
        ∧ decodeAssetJson r = decodeAssetShared r (fun d => d.jsonData) (some (JsVal.str ""))
        ∧ decodeAssetArrayBuffer r
            = decodeAssetShared r (fun d => d.bufData) (some (JsVal.str ""))
        ∧ decodeAssetResponse r
            = decodeAssetShared r (fun d => d) (some (settleResponse r))) := by
  refine ⟨fun β r action backup => rfl, ?_, ?_, ?_,
    fun r b => ⟨rfl, rfl, rfl, rfl⟩, fun r => ⟨rfl, rfl, rfl, rfl, rfl⟩⟩
  · intro β d action backup h
    simp [decodeAssetShared, h]
  · intro β d action b h
    simp [decodeAssetShared, h]
  · intro β d action h
    simp [decodeAssetShared, h]

/-- C8 counterexample: decodeAssetText on a settled not-ok response, with no
caller-supplied backup, resolves to the empty string instead of failing
with a status-bearing error, because its default backup is the empty
string. -/
theorem c8_counterexample :
    decodeAssetText (ResponseLike.settled
      { ok := false, status := 404, blobData := JsVal.str "B",
        textData := JsVal.str "T", jsonData := JsVal.str "J",
        bufData := JsVal.str "A" })
      = Except.ok (JsVal.str "") := by
  rfl

/-- C8 witness: the amended theorem applied at concrete responses. -/
theorem c8_witness :
    decodeAssetShared (ResponseLike.settled
        { ok := true, status := 200, blobData := JsVal.str "B",
          textData := JsVal.str "T", jsonData := JsVal.str "J",
          bufData := JsVal.str "A" })
      (fun d => d.textData) none = Except.ok (JsVal.str "T")
    ∧ decodeAssetShared (ResponseLike.settled
        { ok := false, status := 404, blobData := JsVal.str "B",
          textData := JsVal.str "T", jsonData := JsVal.str "J",
          bufData := JsVal.str "A" })
      (fun d => d.textData) (some (JsVal.str "backup")) = Except.ok (JsVal.str "backup")
    ∧ decodeAssetShared (ResponseLike.settled
        { ok := false, status := 404, blobData := JsVal.str "B",
          textData := JsVal.str "T", jsonData := JsVal.str "J",
          bufData := JsVal.str "A" })
      (fun d => d.textData) none
      = Except.error "Critical error: could not load file: HTTP response 404" := by
  refine ⟨c8_not_ok_handling.2.1 JsVal _ _ none rfl,
    c8_not_ok_handling.2.2.1 JsVal _ _ _ rfl, ?_⟩
  have h := c8_not_ok_handling.2.2.2.1 JsVal
    { ok := false, status := 404, blobData := JsVal.str "B",
      textData := JsVal.str "T", jsonData := JsVal.str "J",
      bufData := JsVal.str "A" }
    (fun d => d.textData) rfl
  simpa using h

/-- C9.  In the part_000 variant, whose registration guard is commented
out, resolving the same import request twice creates a second registry
entry with a fresh identity: the counter advances twice, the two
resolutions return the two successive identities, the by-import index ends
up holding the second entry, and the first entry remains reachable through
the by-identity index at its own identity while the by-identity index also
holds the second entry at the fresh identity; the two entries are
distinct. -/
theorem c9_reregistration (st : PluginState) (r : String) :
    (registerOne (registerOne st r) r).uniqueIdCounter = st.uniqueIdCounter + 2
    ∧ resolvedUid st r = st.uniqueIdCounter
    ∧ resolvedUid (registerOne st r) r = st.uniqueIdCounter + 1
    ∧ mapGet (registerOne (registerOne st r) r).infoByImport r
        = some { importStr := r, uniqueId := st.uniqueIdCounter + 1 }
    ∧ mapGet (registerOne (registerOne st r) r).infoByUid st.uniqueIdCounter
        = some { importStr := r, uniqueId := st.uniqueIdCounter }
    ∧ mapGet (registerOne (registerOne st r) r).infoByUid (st.uniqueIdCounter + 1)
        = some { importStr := r, uniqueId := st.uniqueIdCounter + 1 }
    ∧ ({ importStr := r, uniqueId := st.uniqueIdCounter } : RegInfo)
        ≠ { importStr := r, uniqueId := st.uniqueIdCounter + 1 } := by
  refine ⟨by simp [registerOne], ?_, ?_, ?_, ?_, ?_, by simp⟩
  · simp [resolvedUid, registerOne, mapGet_set_self]
  · simp [resolvedUid, registerOne, mapGet_set_self]
  · simp only [registerOne]
    rw [mapGet_set_self]
  · simp only [registerOne]
    rw [mapGet_set_ne _ _ _ _ (by omega), mapGet_set_self]
  · simp only [registerOne]
    rw [mapGet_set_self]

/-- C10.  The atob2 output buffer is sized from the post-trim,
post-padding-strip length n as the floor of n * 6 / 8 before unmapped
characters are filtered out; the output is the written bytes followed by a
zero tail, and whenever at least one character of the loop input is
unmapped the written bytes are strictly fewer than the buffer length. -/
theorem c10_buffer_layout (data : List Char) (out : List Nat)
    (h : atob2 data = Except.ok out) :
    out.length = (postStrip data).length * 6 / 8
    ∧ out = decodeQuads ((postStrip data).filterMap ctoi)
        ++ List.replicate
            (out.length - (decodeQuads ((postStrip data).filterMap ctoi)).length) 0
    ∧ (((postStrip data).filterMap ctoi).length < (postStrip data).length →
        (decodeQuads ((postStrip data).filterMap ctoi)).length < out.length) := by
  have hmod : ¬ (postStrip data).length % 4 = 1 := by
    intro hc
    obtain ⟨e, he⟩ := (atob2_error_iff data).mpr hc
    rw [h] at he
    exact Except.noConfusion he
  have hok := atob2_ok_eq data hmod
  rw [h] at hok
  have hout := Except.ok.inj hok
  have hm : ((postStrip data).filterMap ctoi).length ≤ (postStrip data).length :=
    List.length_filterMap_le _ _
  have hdq : (decodeQuads ((postStrip data).filterMap ctoi)).length
      = 3 * ((postStrip data).filterMap ctoi).length / 4 := decodeQuads_length _
  have hlen : out.length = (postStrip data).length * 6 / 8 := by
    rw [hout]
    simp [List.length_append, List.length_replicate, hdq]
    omega
  refine ⟨hlen, ?_, ?_⟩
  · rw [hlen, hdq, hout]
  · intro hlt
    rw [hlen, hdq]
    rcases (by omega : (postStrip data).length % 4 = 0 ∨ (postStrip data).length % 4 = 2
      ∨ (postStrip data).length % 4 = 3) with h4 | h4 | h4 <;> omega

/-- C10 witness: an input with one unmapped character decodes into a buffer
with a zero tail. -/
theorem c10_witness :
    ([65, 66, 0] : List Nat).length = (postStrip ("QU!J".toList)).length * 6 / 8
    ∧ ([65, 66, 0] : List Nat)
        = decodeQuads ((postStrip ("QU!J".toList)).filterMap ctoi)
          ++ List.replicate
              (([65, 66, 0] : List Nat).length
                - (decodeQuads ((postStrip ("QU!J".toList)).filterMap ctoi)).length) 0
    ∧ (((postStrip ("QU!J".toList)).filterMap ctoi).length
          < (postStrip ("QU!J".toList)).length →
        (decodeQuads ((postStrip ("QU!J".toList)).filterMap ctoi)).length
          < ([65, 66, 0] : List Nat).length) :=
  c10_buffer_layout ("QU!J".toList) [65, 66, 0] (by decide)
